import Mathlib

/-!
Shallow embedding of the sync-engine query-construction and bulk-deletion
core (src/inbox/api/filtering.py, src/inbox/models/util.py), together with
theorems settling the frozen claims about it.

Datetimes are modelled as integers, database tables as lists of rows, and
SQL / SQLAlchemy query construction as list comprehensions over those rows.
Two pieces of library semantics are reflected in the model:
  * a Python `datetime` object is always truthy, so an `Option Int` models
    an optional datetime and `isSome` models its truthiness;
  * a legacy SQLAlchemy `Query` returning full ORM entities uniquifies the
    fetched rows by primary key (column or count projections are not
    uniquified); the `dedupByKey` function models that uniquing.
-/

set_option maxHeartbeats 1000000

namespace SyncEngine

/-- Keep the first row for each key, dropping later rows whose key is in
`seen` or was already kept. -/
def dedupByKeyAux {α β : Type} [DecidableEq β] (key : α → β) :
    List β → List α → List α
  | _, [] => []
  | seen, a :: as =>
      if key a ∈ seen then dedupByKeyAux key seen as
      else a :: dedupByKeyAux key (key a :: seen) as

/-- Keep the first row for each key, dropping later rows with an
already-seen key.  Models both SQL `DISTINCT` (applied to a projected
column list) and the legacy SQLAlchemy uniquing of full-entity rows by
primary key. -/
def dedupByKey {α β : Type} [DecidableEq β] (key : α → β) (l : List α) : List α :=
  dedupByKeyAux key [] l

/-! ## Data model (schema-level rows) -/

/-- A message row.  Carries both the columns used by the /messages query
and the reconciliation-related columns used by `reconcile_message`. -/
structure Message where
  id : Nat
  namespace_id : Nat
  thread_id : Nat
  public_id : String
  is_draft : Bool
  is_read : Bool
  is_starred : Bool
  received_date : Int
  subject : String
  data_sha256 : String
  inbox_uid : Option String
  is_created : Bool
  version : Int
  message_id_header : String
  references : String
  parsed_body : String
  deriving DecidableEq, Repr

structure Thread where
  id : Nat
  namespace_id : Nat
  public_id : String
  subject : String
  subjectdate : Int
  recentdate : Int
  deriving DecidableEq, Repr

structure Contact where
  id : Nat
  namespace_id : Nat
  email_address : String
  deriving DecidableEq, Repr

structure MessageContactAssociation where
  message_id : Nat
  contact_id : Nat
  field : String
  deriving DecidableEq, Repr

structure Block where
  id : Nat
  namespace_id : Nat
  public_id : String
  filename : String
  content_type_common : String
  content_type_other : String
  deriving DecidableEq, Repr

structure Part where
  id : Nat
  block_id : Nat
  message_id : Nat
  content_disposition : Option String
  deriving DecidableEq, Repr

structure Category where
  id : Nat
  namespace_id : Nat
  name : String
  display_name : String
  public_id : String
  deriving DecidableEq, Repr

structure MessageCategory where
  message_id : Nat
  category_id : Nat
  deriving DecidableEq, Repr

structure Calendar where
  id : Nat
  namespace_id : Nat
  public_id : String
  deriving DecidableEq, Repr

structure RecurringEvent where
  id : Nat
  namespace_id : Nat
  public_id : String
  calendar_id : Nat
  title : String
  description : String
  location : String
  busy : Bool
  source : String
  status : String
  start : Int
  /-- the `until` column (a Lean keyword, hence the trailing underscore) -/
  until_ : Option Int
  length : Int
  deriving DecidableEq, Repr

structure Metadata where
  id : Nat
  namespace_id : Nat
  app_id : Nat
  object_public_id : String
  value : Option String
  queryable_value : Int
  deriving DecidableEq, Repr

/-- The relational state visible to the query-construction engine. -/
structure DB where
  threads : List Thread
  messages : List Message
  contacts : List Contact
  messagecontactassociations : List MessageContactAssociation
  blocks : List Block
  parts : List Part
  categories : List Category
  messagecategories : List MessageCategory
  calendars : List Calendar
  recurringevents : List RecurringEvent
  metadatas : List Metadata
  deriving Repr

/-- Result of a query-assembler call: one of the three view modes. -/
inductive ApiResult (α : Type) where
  | count (n : Nat)
  | ids (l : List String)
  | rows (l : List α)
  deriving DecidableEq, Repr

def countOf {α : Type} : ApiResult α → Nat
  | .count n => n
  | _ => 0

def idsOf {α : Type} : ApiResult α → List String
  | .ids l => l
  | _ => []

def rowsOf {α : Type} : ApiResult α → List α
  | .rows l => l
  | _ => []

/-! ## reconcile_message (src/inbox/models/util.py lines 23-68) -/

/-- Parse a nonempty all-digit character list as a natural number. -/
def digitsToNat? : List Char → Option Nat
  | [] => none
  | l => l.foldl
      (fun acc c =>
        match acc with
        | none => none
        | some n => if c.isDigit then some (n * 10 + (c.toNat - 48)) else none)
      (some 0)

/-- Python `int(s)` on a decimal string: optional leading minus sign and
digits; any other shape raises `ValueError` (modelled as `none`). -/
def pyInt? (s : String) : Option Int :=
  match s.toList with
  | '-' :: rest => (digitsToNat? rest).map fun n => -(n : Int)
  | l => (digitsToNat? l).map fun n => (n : Int)

/-- Split a character list at every occurrence of `c`, keeping empty
pieces, as Python `str.split` with an explicit separator does. -/
def splitOnChar (c : Char) : List Char → List (List Char)
  | [] => [[]]
  | a :: as =>
      let r := splitOnChar c as
      if a == c then [] :: r
      else
        match r with
        | [] => [[a]]
        | h :: t => (a :: h) :: t

/-- Python `s.split('-')`. -/
def pySplitDash (s : String) : List String :=
  (splitOnChar '-' s.toList).map fun l => String.mk l

/-- `existing_message.message_id_header = new_message.message_id_header`
etc.: the header-field update performed when `reconcile_message` decides
to merge the synced message into the stored one. -/
def mergeHeaders (existing new_message : Message) : Message :=
  { existing with
    message_id_header := new_message.message_id_header
    references := new_message.references
    parsed_body := new_message.parsed_body }

/-- `session.query(Message).filter(...).first()` over the message table. -/
def firstMessage (messages : List Message) (p : Message → Bool) : Option Message :=
  (messages.filter p).head?

/-- Embedding of `reconcile_message(new_message, session)`.  The message
table stands for the session's queryable state; the result is the message
object returned (with the header update applied when it happens), and
`Except.error` models an uncaught Python exception (`ValueError` from an
unpacking/size mismatch of `split('-')` or from `int()` on a non-numeric
version). -/
def reconcile_message (new_message : Message) (messages : List Message) :
    Except String (Option Message) :=
  match new_message.inbox_uid with
  | none =>
      .ok (firstMessage messages fun m =>
        m.namespace_id == new_message.namespace_id &&
        m.data_sha256 == new_message.data_sha256)
  | some uid =>
      if ¬ uid.toList.contains '-' then
        -- Old X-Inbox-Id format; version is None, so when a message is
        -- found the `version is None or ...` test succeeds and the header
        -- fields are merged before the message is returned
        let existing := firstMessage messages fun m =>
          m.namespace_id == new_message.namespace_id &&
          m.inbox_uid == some uid && m.is_created
        .ok (existing.map fun e => mergeHeaders e new_message)
      else
        match pySplitDash uid with
        | [expected_public_id, version] =>
            let existing := firstMessage messages fun m =>
              m.namespace_id == new_message.namespace_id &&
              m.public_id == expected_public_id && m.is_created
            match existing with
            | none => .ok none
            | some e =>
                match pyInt? version with
                | none => .error "ValueError: invalid literal for int()"
                | some v =>
                    if v == e.version then .ok (some (mergeHeaders e new_message))
                    else .ok (some e)
        | _ => .error "ValueError: unpacking split result"

/-! ## check_throttle (src/inbox/models/util.py lines 271-325) -/

/-- The maintenance(backup)-window test of `check_throttle`, with the
window start hour and duration as parameters (the source binds them to the
local constants `backup_start_hour_utc = 8`, `backup_duration_hours = 9`).
Mirrors the two-branch comparison of lines 307 and 317-325. -/
def backup_window_throttle (backup_start_hour_utc backup_duration_hours hour : Int) : Bool :=
  let backup_end_hour_utc := (backup_start_hour_utc + backup_duration_hours) % 24
  if hour ≥ backup_start_hour_utc ∧
      hour < min (backup_start_hour_utc + backup_duration_hours) 24 then
    true
  else if backup_end_hour_utc ≤ backup_start_hour_utc ∧
      hour < backup_end_hour_utc ∧
      hour ≥ backup_end_hour_utc - backup_duration_hours then
    true
  else
    false

/-- Embedding of `check_throttle()`.  The two HTTP health checks are
modelled by their observed status codes; `hour` is `utcnow().hour`. -/
def check_throttle (replica_lag_status_code cpu_status_code : Nat) (hour : Int) : Bool :=
  if replica_lag_status_code ≠ 200 ∨ cpu_status_code ≠ 200 then true
  else backup_window_throttle 8 9 hour

/-! ## Bulk namespace-deletion engine
(src/inbox/models/util.py lines 96-268)

The engine bypasses the ORM and issues raw SQL, so its state is modelled
as named tables of rows with integer-valued columns.  Executed DELETE
statements are recorded in a trace (the SELECT COUNT of `_batch_delete`
is a read and is not recorded); log calls are recorded as `LogEvent`s.
An uncaught Python exception is an `Except.error`; statements and logs
already emitted before the exception are kept in the trace. -/

structure Account where
  id : Int
  discriminator : String
  sync_should_run : Bool
  is_deleted : Bool
  deriving DecidableEq, Repr

/-- A raw table row: an association list from column name to value. -/
structure TRow where
  cols : List (String × Int)
  deriving DecidableEq, Repr

def getCol (r : TRow) (c : String) : Int :=
  (r.cols.lookup c).getD 0

structure DelDB where
  tables : List (String × List TRow)
  accounts : List Account
  deriving DecidableEq, Repr

instance : Inhabited DelDB := ⟨⟨[], []⟩⟩

def getTable (db : DelDB) (t : String) : List TRow :=
  ((db.tables.find? fun p => p.1 == t).map fun p => p.2).getD []

def setTable (db : DelDB) (t : String) (rows : List TRow) : DelDB :=
  { db with tables := db.tables.map fun p => if p.1 == t then (p.1, rows) else p }

/-- An executed DELETE statement. -/
structure Stmt where
  table : String
  column : String
  value : Int
  /-- the `LIMIT` clause, when present -/
  limit : Option Nat
  /-- whether the statement carries `ORDER BY received_date desc` -/
  orderByReceivedDateDesc : Bool
  deriving DecidableEq, Repr

inductive LogEvent where
  /-- count-zero early return of `_batch_delete` (line 240) -/
  | batchCompleted (table : String)
  /-- start of a chunked deletion (line 245) -/
  | batchStarting (table : String) (count batches : Nat)
  /-- timed completion of a chunked deletion (line 268) -/
  | batchCompletedTimed (table : String)
  /-- "Throttling deletion" -/
  | throttling
  /-- dry-run `log.debug(query)` -/
  | debugStmt (s : Stmt)
  /-- "Performing bulk deletion" (line 208) -/
  | bulkStart (table : String)
  /-- "Completed bulk deletion" (line 221) -/
  | bulkDone (table : String)
  deriving DecidableEq, Repr

structure ExecTrace where
  stmts : List Stmt
  logs : List LogEvent
  deriving DecidableEq, Repr

def ExecTrace.append (a b : ExecTrace) : ExecTrace :=
  ⟨a.stmts ++ b.stmts, a.logs ++ b.logs⟩

/-- `ORDER BY received_date desc` over raw rows. -/
def sortByReceivedDateDesc (rows : List TRow) : List TRow :=
  rows.insertionSort fun a b => getCol b "received_date" ≤ getCol a "received_date"

/-- Execute one DELETE statement against the state: remove the matching
rows (up to `LIMIT`, in `ORDER BY` order when present). -/
def execDelete (db : DelDB) (s : Stmt) : DelDB :=
  let rows := getTable db s.table
  let matching := rows.filter fun r => getCol r s.column == s.value
  let rest := rows.filter fun r => !(getCol r s.column == s.value)
  let ordered := if s.orderByReceivedDateDesc then sortByReceivedDateDesc matching
    else matching
  let remaining := match s.limit with
    | some n => ordered.drop n
    | none => []
  setTable db s.table (rest ++ remaining)

def CHUNK_SIZE : Nat := 1000

/-- The `for i in range(0, batches)` loop of `_batch_delete`: each
iteration re-checks the throttle, then either executes the DELETE (with
`ORDER BY received_date desc` added for the message table) or, in
dry-run mode, logs the original unordered query. -/
def batchLoop (table column : String) (id_ : Int)
    (throttle throttleHit dry_run : Bool) : Nat → DelDB → DelDB × ExecTrace
  | 0, db => (db, ⟨[], []⟩)
  | n + 1, db =>
      let throttleLogs : List LogEvent :=
        if throttle && throttleHit then [.throttling] else []
      let plainStmt : Stmt := ⟨table, column, id_, some 2000, false⟩
      if dry_run then
        let r := batchLoop table column id_ throttle throttleHit dry_run n db
        (r.1, ⟨r.2.stmts, throttleLogs ++ [.debugStmt plainStmt] ++ r.2.logs⟩)
      else
        let stmt := if table == "message" then
            { plainStmt with orderByReceivedDateDesc := true }
          else plainStmt
        let r := batchLoop table column id_ throttle throttleHit dry_run n
          (execDelete db stmt)
        (r.1, ⟨stmt :: r.2.stmts, throttleLogs ++ r.2.logs⟩)

/-- Embedding of `_batch_delete(engine, table, (column, id_))`. -/
def _batch_delete (db : DelDB) (table column : String) (id_ : Int)
    (throttle throttleHit dry_run : Bool) : DelDB × ExecTrace :=
  let count := (getTable db table).countP fun r => getCol r column == id_
  if count == 0 then
    (db, ⟨[], [.batchCompleted table]⟩)
  else
    let batches := (count + (CHUNK_SIZE - 1)) / CHUNK_SIZE
    let r := batchLoop table column id_ throttle throttleHit dry_run batches db
    (r.1, ⟨r.2.stmts,
      [.batchStarting table count batches] ++ r.2.logs ++ [.batchCompletedTimed table]⟩)

/-- The chunk-deleted tables, with the filter column and value each uses:
eight namespace-scoped tables, then the per-account tables picked by the
account discriminator. -/
def chunkFilters (discriminator : String) (account_id namespace_id : Int) :
    List (String × String × Int) :=
  [("message", "namespace_id", namespace_id),
   ("block", "namespace_id", namespace_id),
   ("thread", "namespace_id", namespace_id),
   ("transaction", "namespace_id", namespace_id),
   ("actionlog", "namespace_id", namespace_id),
   ("contact", "namespace_id", namespace_id),
   ("event", "namespace_id", namespace_id),
   ("dataprocessingcache", "namespace_id", namespace_id)] ++
  (if discriminator ≠ "easaccount" then
    [("imapuid", "account_id", account_id),
     ("imapfoldersyncstatus", "account_id", account_id),
     ("imapfolderinfo", "account_id", account_id)]
  else
    [("easuid", "easaccount_id", account_id),
     ("easfoldersyncstatus", "account_id", account_id)])

/-- The low-volume tables deleted by one unbounded statement each. -/
def singleFilters (account_id namespace_id : Int) : List (String × String × Int) :=
  [("category", "namespace_id", namespace_id),
   ("calendar", "namespace_id", namespace_id),
   ("folder", "account_id", account_id),
   ("label", "account_id", account_id),
   ("namespace", "id", namespace_id)]

def chunkStep (throttle throttleHit dry_run : Bool)
    (acc : DelDB × ExecTrace) (tf : String × String × Int) : DelDB × ExecTrace :=
  let (db1, tr1) := _batch_delete acc.1 tf.1 tf.2.1 tf.2.2 throttle throttleHit dry_run
  (db1, acc.2.append tr1)

/-- One iteration of the single-statement deletion loop of
`delete_namespace` (lines 207-221). -/
def singleStep (throttle throttleHit dry_run : Bool)
    (acc : DelDB × ExecTrace) (tf : String × String × Int) : DelDB × ExecTrace :=
  let throttleLogs : List LogEvent :=
    if throttle && throttleHit then [.throttling] else []
  let stmt : Stmt := ⟨tf.1, tf.2.1, tf.2.2, none, false⟩
  if dry_run then
    (acc.1, acc.2.append ⟨[], [.bulkStart tf.1] ++ throttleLogs ++
      [.debugStmt stmt, .bulkDone tf.1]⟩)
  else
    (execDelete acc.1 stmt, acc.2.append ⟨[stmt],
      [.bulkStart tf.1] ++ throttleLogs ++ [.bulkDone tf.1]⟩)

/-- Embedding of `delete_namespace(account_id, namespace_id)`.  The two
account lookups go through `db.accounts`; `account.discriminator` on a
missing account and `db_session.delete(None)` both raise (the former an
`AttributeError`, the latter an `UnmappedInstanceError`). -/
def delete_namespace (db : DelDB) (account_id namespace_id : Int)
    (throttle throttleHit dry_run : Bool) : Except String DelDB × ExecTrace :=
  match db.accounts.find? fun a => a.id == account_id with
  | none =>
      (.error "AttributeError: NoneType object has no attribute discriminator", ⟨[], []⟩)
  | some account =>
      let cres :=
        (chunkFilters account.discriminator account_id namespace_id).foldl
          (chunkStep throttle throttleHit dry_run) (db, ⟨[], []⟩)
      let sres :=
        (singleFilters account_id namespace_id).foldl
          (singleStep throttle throttleHit dry_run) cres
      let result : Except String DelDB :=
        match sres.1.accounts.find? fun a => a.id == account_id, dry_run with
        | none, false => .error "UnmappedInstanceError: None is not mapped"
        | none, true => .ok sres.1
        | some _, false =>
            .ok { sres.1 with
                  accounts := sres.1.accounts.filter fun a => !(a.id == account_id) }
        | some _, true => .ok sres.1
      (result, sres.2)

/-! ## delete_marked_accounts (src/inbox/models/util.py lines 104-147)

The claims about this function concern its control flow when individual
steps fail, so the observable outcomes of its collaborators are the
per-pair environment: what the account lookup returns, and whether the
`delete_namespace` call and the liveness/statsd calls raise. -/

structure PairEnv where
  account_id : Int
  namespace_id : Int
  /-- result of `db_session.query(Account).get(account_id)` for this pair -/
  account : Option Account
  /-- whether the `delete_namespace` call raises for this pair -/
  deleteNamespaceRaises : Bool
  /-- whether `clear_heartbeat_status` or the statsd timing call raises -/
  heartbeatRaises : Bool
  deriving DecidableEq, Repr

inductive DMLog where
  /-- `log.critical('Account with does not exist')` -/
  | accountMissing (account_id : Int)
  /-- `log.warn('Account NOT marked for deletion. Will not delete')` -/
  | accountNotMarked (account_id : Int)
  /-- `log.info('Deleting account')` -/
  | deletingAccount (account_id : Int)
  /-- `log.info('Deleting database data')` -/
  | deletingDbData (account_id : Int)
  /-- `log.critical('Database data deletion failed')` -/
  | dbDeletionFailed (account_id : Int)
  /-- `log.debug('Deleting liveness data')` -/
  | deletingLiveness (account_id : Int)
  /-- `log_uncaught_errors(log, account_id=account_id)` -/
  | uncaughtError (account_id : Int)
  /-- `log.info('All data deleted successfully', ..., count=deleted_count)` -/
  | allDataDeleted (count : Nat)
  deriving DecidableEq, Repr

/-- The body of the `for account_id, namespace_id in ids_to_delete` loop,
without its outer `try`/`except`: `Except.error` is an exception escaping
to the outer handler, carrying the logs emitted before it; `Except.ok`
carries the logs and whether `deleted_count` was incremented. -/
def processAccountBody (e : PairEnv) : Except (List DMLog) (List DMLog × Bool) :=
  match e.account with
  | none => .ok ([.accountMissing e.account_id], false)
  | some account =>
      if account.sync_should_run || !account.is_deleted then
        .ok ([.accountNotMarked e.account_id], false)
      else
        let pre : List DMLog := [.deletingAccount e.account_id, .deletingDbData e.account_id]
        if e.deleteNamespaceRaises then
          .ok (pre ++ [.dbDeletionFailed e.account_id], false)
        else if e.heartbeatRaises then
          .error (pre ++ [.deletingLiveness e.account_id])
        else
          .ok (pre ++ [.deletingLiveness e.account_id], true)

/-- The loop of `delete_marked_accounts`: each iteration's body runs under
`try`/`except Exception`, whose handler calls `log_uncaught_errors` and
falls through to the next pair. -/
def dmaLoop : List PairEnv → List DMLog × Nat
  | [] => ([], 0)
  | e :: rest =>
      let r : List DMLog × Nat :=
        match processAccountBody e with
        | .ok (ls, b) => (ls, if b then 1 else 0)
        | .error ls => (ls ++ [.uncaughtError e.account_id], 0)
      let r2 := dmaLoop rest
      (r.1 ++ r2.1, r.2 + r2.2)

/-- Embedding of `delete_marked_accounts(shard_id, ids_to_delete)`: the
loop over all pairs followed by the final summary log. -/
def delete_marked_accounts (ids_to_delete : List PairEnv) : List DMLog × Nat :=
  let r := dmaLoop ids_to_delete
  (r.1 ++ [.allDataDeleted r.2], r.2)

/-- The logs one pair contributes to a `delete_marked_accounts` run
(with the outer exception handler applied). -/
def pairLogs (e : PairEnv) : List DMLog :=
  match processAccountBody e with
  | .ok (ls, _) => ls
  | .error ls => ls ++ [.uncaughtError e.account_id]

/-- Whether one pair increments `deleted_count`. -/
def pairSucceeds (e : PairEnv) : Bool :=
  match processAccountBody e with
  | .ok (_, b) => b
  | .error _ => false

/-! ## Query assembler (src/inbox/api/filtering.py)

Queries are modelled as list comprehensions over the `DB` row lists: a
join is a `bind` over the joined tables with the join condition as a
guard, a `WHERE` clause is a `filter`, `ORDER BY` is an insertion sort,
`LIMIT l OFFSET o` is `drop o` then `take l` (the source omits the
OFFSET clause when `offset` is falsy, which coincides with `drop 0`). -/

/-- Modelled from the spec: the identifier validator `valid_public_id`
lives in inbox/api/validation.py, outside src/.  The spec describes it as
a pure, fixed-length syntactic check (a 24-character alphanumeric
token). -/
def valid_public_id (s : String) : Bool :=
  s.length == 24 && s.toList.all Char.isAlphanum

/-- The OR of category-token conditions built by `_threads_join_category`
and by the `in_` branch of `messages_or_drafts`: name match, display-name
match, and (only for a syntactically valid public identifier) public-id
match. -/
def categoryTokenMatch (tok : String) (c : Category) : Bool :=
  c.name == tok || c.display_name == tok || (valid_public_id tok && c.public_id == tok)

structure ThreadsParams where
  namespace_id : Nat
  subject : Option String := none
  from_addr : Option String := none
  to_addr : Option String := none
  cc_addr : Option String := none
  bcc_addr : Option String := none
  any_email : Option (List String) := none
  thread_public_id : Option String := none
  started_before : Option Int := none
  started_after : Option Int := none
  last_message_before : Option Int := none
  last_message_after : Option Int := none
  filename : Option String := none
  in_ : Option String := none
  unread : Option Bool := none
  starred : Option Bool := none
  deriving Repr

/-- Embedding of `_threads_filters` as the conjunction of its
conditions. -/
def threadsFiltersPass (p : ThreadsParams) (t : Thread) : Bool :=
  t.namespace_id == p.namespace_id &&
  (match p.thread_public_id with | none => true | some v => t.public_id == v) &&
  (match p.started_before with | none => true | some v => decide (t.subjectdate < v)) &&
  (match p.started_after with | none => true | some v => decide (t.subjectdate > v)) &&
  (match p.last_message_before with | none => true | some v => decide (t.recentdate < v)) &&
  (match p.last_message_after with | none => true | some v => decide (t.recentdate > v)) &&
  (match p.subject with | none => true | some v => t.subject == v)

/-- The `Message.thread_id` subquery joining messages, associations and
contacts, restricted to one association role. -/
def contactThreadSubquery (db : DB) (ns : Nat) (addr fieldName : String) : List Nat :=
  db.messages.flatMap fun m =>
    db.messagecontactassociations.flatMap fun a =>
      db.contacts.flatMap fun c =>
        if a.message_id == m.id && c.id == a.contact_id &&
            c.email_address == addr && c.namespace_id == ns && a.field == fieldName
        then [m.thread_id] else []

/-- The `any_email` variant: any association role, address in the list. -/
def anyEmailThreadSubquery (db : DB) (ns : Nat) (addrs : List String) : List Nat :=
  db.messages.flatMap fun m =>
    db.messagecontactassociations.flatMap fun a =>
      db.contacts.flatMap fun c =>
        if a.message_id == m.id && c.id == a.contact_id &&
            addrs.contains c.email_address && c.namespace_id == ns
        then [m.thread_id] else []

/-- The filename subquery: messages joined to parts and blocks. -/
def filenameThreadSubquery (db : DB) (ns : Nat) (fn : String) : List Nat :=
  db.messages.flatMap fun m =>
    db.parts.flatMap fun p =>
      db.blocks.flatMap fun b =>
        if p.message_id == m.id && b.id == p.block_id &&
            b.filename == fn && b.namespace_id == ns
        then [m.thread_id] else []

/-- Embedding of `_threads_subqueries`: one `thread_id` row set per
non-null filter value. -/
def _threads_subqueries (db : DB) (p : ThreadsParams) : List (List Nat) :=
  (match p.from_addr with
   | none => [] | some a => [contactThreadSubquery db p.namespace_id a "from_addr"]) ++
  (match p.to_addr with
   | none => [] | some a => [contactThreadSubquery db p.namespace_id a "to_addr"]) ++
  (match p.cc_addr with
   | none => [] | some a => [contactThreadSubquery db p.namespace_id a "cc_addr"]) ++
  (match p.bcc_addr with
   | none => [] | some a => [contactThreadSubquery db p.namespace_id a "bcc_addr"]) ++
  (match p.any_email with
   | none => [] | some l => [anyEmailThreadSubquery db p.namespace_id l]) ++
  (match p.filename with
   | none => [] | some fn => [filenameThreadSubquery db p.namespace_id fn]) ++
  (match p.unread with
   | none => []
   | some u => [db.messages.flatMap fun m =>
      if m.namespace_id == p.namespace_id && m.is_read == !u then [m.thread_id] else []]) ++
  (match p.starred with
   | none => []
   | some s => [db.messages.flatMap fun m =>
      if m.namespace_id == p.namespace_id && m.is_starred == s then [m.thread_id] else []])

/-- Embedding of `_threads_join_category`: with a category token, join
each thread row to its messages, their category links and the category,
keeping one joined row per link that matches the token. -/
def _threads_join_category (db : DB) (ns : Nat) (tok? : Option String)
    (base : List Thread) : List Thread :=
  match tok? with
  | none => base
  | some tok =>
      base.flatMap fun t =>
        db.messages.flatMap fun m =>
          db.messagecategories.flatMap fun mc =>
            db.categories.flatMap fun c =>
              if m.thread_id == t.id && mc.message_id == m.id && c.id == mc.category_id &&
                  c.namespace_id == ns && categoryTokenMatch tok c
              then [t] else []

/-- The raw (possibly fanned-out) thread rows of the /threads query,
before any view-specific projection, ordering or pagination. -/
def threadsRawRows (db : DB) (p : ThreadsParams) : List Thread :=
  let joined := _threads_join_category db p.namespace_id p.in_ db.threads
  let filtered := joined.filter (threadsFiltersPass p)
  (_threads_subqueries db p).foldl
    (fun acc sq => acc.filter fun t => sq.contains t.id) filtered

/-- Embedding of `threads(...)`: count view is `count(distinct Thread.id)`
over the raw rows; ids and full views order by `recentdate` descending and
paginate; the full view additionally uniquifies the fetched entity rows by
primary key (legacy SQLAlchemy `Query` semantics). -/
def threads (db : DB) (p : ThreadsParams) (limit offset : Nat) (view : String) :
    ApiResult Thread :=
  let rows := threadsRawRows db p
  if view == "count" then
    .count ((rows.map fun t => t.id).dedup.length)
  else
    let sorted := rows.insertionSort fun a b => b.recentdate ≤ a.recentdate
    let paged := (sorted.drop offset).take limit
    if view == "ids" then .ids (paged.map fun t => t.public_id)
    else .rows (dedupByKey (fun t => t.id) paged)

structure MessagesParams where
  namespace_id : Nat
  drafts : Bool
  subject : Option String := none
  from_addr : Option String := none
  to_addr : Option String := none
  cc_addr : Option String := none
  bcc_addr : Option String := none
  any_email : Option (List String) := none
  thread_public_id : Option String := none
  started_before : Option Int := none
  started_after : Option Int := none
  last_message_before : Option Int := none
  last_message_after : Option Int := none
  received_before : Option Int := none
  received_after : Option Int := none
  filename : Option String := none
  in_ : Option String := none
  unread : Option Bool := none
  starred : Option Bool := none
  deriving Repr

/-- The `MessageContactAssociation.message_id` subquery of
`messages_or_drafts` for one association role. -/
def contactMessageSubquery (db : DB) (ns : Nat) (addr fieldName : String) : List Nat :=
  db.messagecontactassociations.flatMap fun a =>
    db.contacts.flatMap fun c =>
      if c.id == a.contact_id && a.field == fieldName &&
          c.email_address == addr && c.namespace_id == ns
      then [a.message_id] else []

/-- The `any_email` message-id subquery. -/
def anyEmailMessageSubquery (db : DB) (ns : Nat) (addrs : List String) : List Nat :=
  db.messagecontactassociations.flatMap fun a =>
    db.contacts.flatMap fun c =>
      if c.id == a.contact_id && addrs.contains c.email_address && c.namespace_id == ns
      then [a.message_id] else []

/-- The WHERE/JOIN membership predicate assembled by `messages_or_drafts`
for a message row and its joined thread row: the base restrictions plus
one conjunct per non-null filter, in source order. -/
def messagesFilterPass (db : DB) (p : MessagesParams) (m : Message) (t : Thread) : Bool :=
  m.thread_id == t.id &&
  m.namespace_id == p.namespace_id &&
  m.is_draft == p.drafts &&
  (match p.subject with | none => true | some v => m.subject == v) &&
  (match p.unread with | none => true | some v => m.is_read == !v) &&
  (match p.starred with | none => true | some v => m.is_starred == v) &&
  (match p.thread_public_id with | none => true | some v => t.public_id == v) &&
  (match p.started_before with
   | none => true
   | some v => decide (t.subjectdate < v) && t.namespace_id == p.namespace_id) &&
  (match p.started_after with
   | none => true
   | some v => decide (t.subjectdate > v) && t.namespace_id == p.namespace_id) &&
  (match p.last_message_before with
   | none => true
   | some v => decide (t.recentdate < v) && t.namespace_id == p.namespace_id) &&
  (match p.last_message_after with
   | none => true
   | some v => decide (t.recentdate > v) && t.namespace_id == p.namespace_id) &&
  (match p.received_before with
   | none => true
   | some v => decide (m.received_date ≤ v)) &&
  (match p.received_after with
   | none => true
   | some v => decide (m.received_date > v)) &&
  (match p.to_addr with
   | none => true
   | some a => (contactMessageSubquery db p.namespace_id a "to_addr").contains m.id) &&
  (match p.from_addr with
   | none => true
   | some a => (contactMessageSubquery db p.namespace_id a "from_addr").contains m.id) &&
  (match p.cc_addr with
   | none => true
   | some a => (contactMessageSubquery db p.namespace_id a "cc_addr").contains m.id) &&
  (match p.bcc_addr with
   | none => true
   | some a => (contactMessageSubquery db p.namespace_id a "bcc_addr").contains m.id) &&
  (match p.any_email with
   | none => true
   | some l => (anyEmailMessageSubquery db p.namespace_id l).contains m.id) &&
  (match p.filename with
   | none => true
   | some fn => db.parts.any fun pt =>
      pt.message_id == m.id && db.blocks.any fun b =>
        b.id == pt.block_id && b.filename == fn && b.namespace_id == p.namespace_id) &&
  (match p.in_ with
   | none => true
   | some tok => db.messagecategories.any fun mc =>
      mc.message_id == m.id && db.categories.any fun c =>
        c.id == mc.category_id && c.namespace_id == p.namespace_id &&
        categoryTokenMatch tok c)

/-! ### files (src/inbox/api/filtering.py lines 352-393) -/

/-- `query.outerjoin(Part)`: each block row paired with each of its part
rows, or with `none` when it has no part row. -/
def filesOuterRows (db : DB) : List (Block × Option Part) :=
  db.blocks.flatMap fun b =>
    let ps := db.parts.filter fun p => p.block_id == b.id
    if ps.isEmpty then [(b, none)] else ps.map fun p => (b, some p)

/-- The joined, filtered row set of the /files query (before projection,
ordering, DISTINCT and pagination). -/
def filesRows (db : DB) (namespace_id : Nat)
    (message_public_id filename content_type : Option String) :
    List (Block × Option Part) :=
  let rows := (filesOuterRows db).filter fun r => r.1.namespace_id == namespace_id
  -- limit to actual attachments (no content-disposition == not a real
  -- attachment): Part.id IS NULL OR Part.content_disposition IS NOT NULL
  let rows := rows.filter fun r =>
    match r.2 with
    | none => true
    | some p => p.content_disposition.isSome
  let rows := rows.filter fun r =>
    match content_type with
    | none => true
    | some ct => r.1.content_type_common == ct || r.1.content_type_other == ct
  let rows := rows.filter fun r =>
    match filename with
    | none => true
    | some fn => r.1.filename == fn
  match message_public_id with
  | none => rows
  | some mp =>
      rows.flatMap fun r =>
        match r.2 with
        | none => []
        | some p =>
            db.messages.flatMap fun m =>
              if m.id == p.message_id && m.public_id == mp then [r] else []

/-- Embedding of `files(...)`: the count view counts the joined rows
(`count(Block.id)`, no DISTINCT); ids and full views order by `Block.id`
ascending, apply DISTINCT to the projected columns, then paginate. -/
def files (db : DB) (namespace_id : Nat)
    (message_public_id filename content_type : Option String)
    (limit offset : Nat) (view : String) : ApiResult Block :=
  let rows := filesRows db namespace_id message_public_id filename content_type
  if view == "count" then .count rows.length
  else
    let sorted := rows.insertionSort fun a b => a.1.id ≤ b.1.id
    if view == "ids" then
      let pids := dedupByKey (fun s => s) (sorted.map fun r => r.1.public_id)
      .ids ((pids.drop offset).take limit)
    else
      let blocks := dedupByKey (fun b => b.id) (sorted.map fun r => r.1)
      .rows ((blocks.drop offset).take limit)

/-! ### recurring_events (src/inbox/api/filtering.py lines 396-467) -/

structure EventFilters where
  namespace_id : Nat
  event_public_id : Option String := none
  calendar_public_id : Option String := none
  title : Option String := none
  description : Option String := none
  location : Option String := none
  busy : Option Bool := none
  deriving Repr

/-- Substring containment over character lists, modelling SQL
`LIKE u'%pat%'`. -/
def charsContain (pat : List Char) : List Char → Bool
  | [] => pat.isEmpty
  | c :: rest => pat.isPrefixOf (c :: rest) || charsContain pat rest

/-- Embedding of `filter_event_query` as a membership predicate on a
recurring-event row (the calendar join becomes an existential over the
calendar table).  Note `if event_public_id:` is a truthiness test, so an
empty string contributes no restriction. -/
def filter_event_query_pass (db : DB) (f : EventFilters) (e : RecurringEvent) : Bool :=
  e.namespace_id == f.namespace_id &&
  (match f.event_public_id with
   | none => true
   | some v => v == "" || e.public_id == v) &&
  (match f.calendar_public_id with
   | none => true
   | some v => db.calendars.any fun cal =>
      cal.id == e.calendar_id && cal.public_id == v && cal.namespace_id == f.namespace_id) &&
  (match f.title with
   | none => true
   | some v => charsContain v.toList e.title.toList) &&
  (match f.description with
   | none => true
   | some v => charsContain v.toList e.description.toList) &&
  (match f.location with
   | none => true
   | some v => charsContain v.toList e.location.toList) &&
  (match f.busy with | none => true | some v => e.busy == v) &&
  e.source == "local"

/-- The recurring-event templates surviving the `recur_query` filters of
`recurring_events` (a `datetime` is always truthy, so the `if` guards on
the window bounds are `isSome` tests). -/
def recurringEventSurvivors (db : DB) (f : EventFilters)
    (starts_before starts_after ends_before ends_after : Option Int)
    (show_cancelled : Bool) : List RecurringEvent :=
  db.recurringevents.filter fun r =>
    filter_event_query_pass db f r &&
    (show_cancelled || !(r.status == "cancelled")) &&
    (match starts_before with | none => true | some v => decide (r.start < v)) &&
    (match ends_before with | none => true | some v => decide (r.start < v)) &&
    (match starts_after with
     | none => true
     | some v => match r.until_ with | none => true | some u => decide (u > v)) &&
    (match ends_after with
     | none => true
     | some v => match r.until_ with | none => true | some u => decide (u > v))

/-- One `r.all_events(start=starts_after, end=starts_before)` call made
inside the loop of `recurring_events`: the template and the window bounds
passed for it.  `all_events` itself lives in inbox/events/recurring.py,
outside src/, so the embedding records the calls rather than their
results. -/
structure ExpCall where
  ev : RecurringEvent
  start : Option Int
  stop : Option Int
  deriving DecidableEq, Repr

/-- The `for r in recur_query` loop of `recurring_events`: the local
variables `starts_before` and `starts_after` are reassigned inside the
loop body when the corresponding derivation fires, and the reassigned
values persist into the following iterations. -/
def expansionLoop (ends_before ends_after : Option Int) :
    List RecurringEvent → Option Int → Option Int → List ExpCall
  | [], _, _ => []
  | r :: rs, starts_before, starts_after =>
      let sb := match ends_before, starts_before with
        | some e, none => some (e - r.length)
        | _, _ => starts_before
      let sa := match ends_after, starts_after with
        | some e, none => some (e - r.length)
        | _, _ => starts_after
      ⟨r, sa, sb⟩ :: expansionLoop ends_before ends_after rs sb sa

/-- Embedding of `recurring_events(...)` as the sequence of expansion
calls it performs, one per surviving template, in order. -/
def recurring_events_calls (db : DB) (f : EventFilters)
    (starts_before starts_after ends_before ends_after : Option Int)
    (show_cancelled : Bool) : List ExpCall :=
  expansionLoop ends_before ends_after
    (recurringEventSurvivors db f starts_before starts_after ends_before ends_after
      show_cancelled)
    starts_before starts_after

/-! ### metadata (src/inbox/api/filtering.py lines 567-594) -/

/-- The filtered row set of the metadata listing query. -/
def metadataRows (db : DB) (namespace_id : Nat) (app_id : Option Nat) : List Metadata :=
  db.metadatas.filter fun m =>
    m.namespace_id == namespace_id && m.value.isSome &&
    (match app_id with | none => true | some a => m.app_id == a)

/-- Embedding of `metadata(...)`: count view is a plain count; ids and
full views order by `Metadata.id` descending and paginate (the full view
uniquifies entity rows by primary key). -/
def metadata (db : DB) (namespace_id : Nat) (app_id : Option Nat)
    (view : String) (limit offset : Nat) : ApiResult Metadata :=
  let rows := metadataRows db namespace_id app_id
  if view == "count" then .count rows.length
  else
    let sorted := rows.insertionSort fun a b => b.id ≤ a.id
    let paged := (sorted.drop offset).take limit
    if view == "ids" then .ids (paged.map fun m => m.object_public_id)
    else .rows (dedupByKey (fun m => m.id) paged)

/-! ## Spec-side definitions used to state claims -/

/-- The spec's notion of a "real" attachment: a Block with at least one
Part whose `content_disposition` is non-null. -/
def isRealAttachment (db : DB) (b : Block) : Bool :=
  db.parts.any fun p => p.block_id == b.id && p.content_disposition.isSome

/-- The condition under which the /files query actually keeps a block:
its namespace matches and it either has no Part rows at all (the outer
join's null row passes the `Part.id IS NULL` disjunct) or has at least
one Part with non-null `content_disposition`. -/
def blockPasses (db : DB) (ns : Nat) (b : Block) : Bool :=
  b.namespace_id == ns &&
  ((db.parts.filter fun p => p.block_id == b.id).isEmpty || isRealAttachment db b)

/-- The per-template derivation asserted by claim C3: whenever only an
end-side bound was given at entry, every expansion call's missing
start-side bound equals that end-side bound minus the called template's
own length. -/
def c3ClaimHolds (db : DB) (f : EventFilters)
    (starts_before starts_after ends_before ends_after : Option Int)
    (show_cancelled : Bool) : Bool :=
  (recurring_events_calls db f starts_before starts_after ends_before ends_after
      show_cancelled).all fun c =>
    (match ends_before, starts_before with
     | some e, none => c.stop == some (e - c.ev.length)
     | _, _ => true) &&
    (match ends_after, starts_after with
     | some e, none => c.start == some (e - c.ev.length)
     | _, _ => true)

/-! ## Concrete instances used by counterexamples and witnesses -/

def emptyDB : DB :=
  ⟨[], [], [], [], [], [], [], [], [], [], []⟩

def c1_existing : Message :=
  { id := 1, namespace_id := 1, thread_id := 1, public_id := "abc123",
    is_draft := true, is_read := false, is_starred := false,
    received_date := 0, subject := "hello", data_sha256 := "hash-e",
    inbox_uid := none, is_created := true, version := 2,
    message_id_header := "old-header", references := "old-refs",
    parsed_body := "old-body" }

/-- A synced message with reconciliation key `abc123-1`: version 1,
older than the stored version 2. -/
def c1_synced_v1 : Message :=
  { c1_existing with
    id := 11, public_id := "other1",
    inbox_uid := some "abc123-1", is_created := false,
    data_sha256 := "hash-1", message_id_header := "new-header",
    references := "new-refs", parsed_body := "new-body" }

/-- A synced message with reconciliation key `abc123-3`: version 3,
strictly newer than the stored version 2. -/
def c1_synced_v3 : Message :=
  { c1_synced_v1 with
    id := 13, public_id := "other3",
    inbox_uid := some "abc123-3", data_sha256 := "hash-3" }

/-- A block with no Part rows at all, in namespace 7. -/
def c2_block : Block :=
  { id := 1, namespace_id := 7, public_id := "blk1", filename := "f.txt",
    content_type_common := "text/plain", content_type_other := "" }

def c2_db : DB := { emptyDB with blocks := [c2_block] }

def c3_r1 : RecurringEvent :=
  { id := 1, namespace_id := 1, public_id := "r1", calendar_id := 1,
    title := "t", description := "d", location := "l", busy := false,
    source := "local", status := "confirmed", start := 0, until_ := none,
    length := 1 }

/-- A second surviving template with a different length. -/
def c3_r2 : RecurringEvent :=
  { c3_r1 with id := 2, public_id := "r2", length := 2 }

def c3_db : DB := { emptyDB with recurringevents := [c3_r1, c3_r2] }

def c3_filters : EventFilters := { namespace_id := 1 }

def c4_db0 : DelDB :=
  { tables :=
      [("message", [⟨[("namespace_id", 1), ("received_date", 5)]⟩,
                    ⟨[("namespace_id", 1), ("received_date", 3)]⟩]),
       ("block", []), ("thread", []), ("transaction", []), ("actionlog", []),
       ("contact", []), ("event", []), ("dataprocessingcache", []),
       ("imapuid", []), ("imapfoldersyncstatus", []), ("imapfolderinfo", []),
       ("category", []), ("calendar", []), ("folder", []), ("label", []),
       ("namespace", [⟨[("id", 1)]⟩])],
    accounts := [⟨1, "genericaccount", false, true⟩] }

/-- The state left behind by a first, successful `delete_namespace` run
on `c4_db0`. -/
def c4_db1 : DelDB :=
  match (delete_namespace c4_db0 1 1 false false false).1 with
  | .ok d => d
  | .error _ => default

def c5_thread : Thread :=
  { id := 1, namespace_id := 1, public_id := "t1", subject := "s",
    subjectdate := 0, recentdate := 10 }

def c5_message (mid : Nat) : Message :=
  { id := mid, namespace_id := 1, thread_id := 1, public_id := "m",
    is_draft := false, is_read := false, is_starred := false,
    received_date := 0, subject := "s", data_sha256 := "h",
    inbox_uid := none, is_created := false, version := 0,
    message_id_header := "", references := "", parsed_body := "" }

/-- One thread whose three messages are all in the category named
`work`. -/
def c5_db : DB :=
  { emptyDB with
    threads := [c5_thread],
    messages := [c5_message 1, c5_message 2, c5_message 3],
    categories := [{ id := 5, namespace_id := 1, name := "work",
                     display_name := "Work", public_id := "cat-pub" }],
    messagecategories := [⟨1, 5⟩, ⟨2, 5⟩, ⟨3, 5⟩] }

def c5_params : ThreadsParams := { namespace_id := 1, in_ := some "work" }

def c9_acct (i : Int) (should_run deleted : Bool) : Account :=
  ⟨i, "genericaccount", should_run, deleted⟩

/-- A pair whose account is still scheduled to sync: precondition fails. -/
def c9_env_notMarked : PairEnv := ⟨1, 1, some (c9_acct 1 true true), false, false⟩

/-- A pair whose `delete_namespace` call raises. -/
def c9_env_deleteRaises : PairEnv := ⟨2, 2, some (c9_acct 2 false true), true, false⟩

/-- A pair whose liveness cleanup raises. -/
def c9_env_heartbeatRaises : PairEnv := ⟨3, 3, some (c9_acct 3 false true), false, true⟩

/-- A pair that deletes successfully. -/
def c9_env_ok : PairEnv := ⟨4, 4, some (c9_acct 4 false true), false, false⟩

def c10_null_row : Metadata :=
  { id := 9, namespace_id := 1, app_id := 2, object_public_id := "obj9",
    value := none, queryable_value := 0 }

def c10_live_row : Metadata :=
  { id := 8, namespace_id := 1, app_id := 2, object_public_id := "obj8",
    value := some "v", queryable_value := 0 }

def c10_db : DB := { emptyDB with metadatas := [c10_live_row] }

/-! ## Claim theorems -/

/-- C6: the maintenance-window part of `check_throttle` is correct
including wraparound past midnight: for start hour `S` and duration `D`
(in UTC hours, within a day) the window test fires exactly for current
hours `h` with `(h - S) mod 24 < D`; in particular for start 22 and
duration 9 the window test fires at hour 23 and not at hour 10, and with
both health checks succeeding `check_throttle` reduces to the window
test at the source's constants (start 8, duration 9). -/
theorem check_throttle_window_correct :
    (∀ S D h : Int, 0 ≤ S → S < 24 → 0 ≤ D → D ≤ 24 → 0 ≤ h → h < 24 →
      (backup_window_throttle S D h = true ↔ (h - S) % 24 < D)) ∧
    backup_window_throttle 22 9 23 = true ∧
    backup_window_throttle 22 9 10 = false ∧
    (∀ h : Int, check_throttle 200 200 h = backup_window_throttle 8 9 h) := by
  refine ⟨?_, by decide, by decide, fun h => by simp [check_throttle]⟩
  intro S D h hS0 hS24 hD0 hD24 hh0 hh24
  simp only [backup_window_throttle]
  constructor
  · intro hw
    by_cases h1 : h ≥ S ∧ h < min (S + D) 24
    · omega
    · rw [if_neg h1] at hw
      by_cases h2 : (S + D) % 24 ≤ S ∧ h < (S + D) % 24 ∧ h ≥ (S + D) % 24 - D
      · omega
      · rw [if_neg h2] at hw
        exact absurd hw (by simp)
  · intro hmod
    by_cases h1 : h ≥ S ∧ h < min (S + D) 24
    · rw [if_pos h1]
    · rw [if_neg h1]
      have h2 : (S + D) % 24 ≤ S ∧ h < (S + D) % 24 ∧ h ≥ (S + D) % 24 - D := by
        omega
      rw [if_pos h2]

/-- Witness for C6: the hypotheses of the window theorem hold at
start 22, duration 9, hour 23, and the window test fires there. -/
theorem check_throttle_window_correct_witness :
    ((23 - 22 : Int) % 24 < 9) ∧ backup_window_throttle 22 9 23 = true :=
  ⟨by decide,
   (check_throttle_window_correct.1 22 9 23 (by decide) (by decide) (by decide)
      (by decide) (by decide) (by decide)).mpr (by decide)⟩

/-- C1 counterexample: the claim says a synced message whose version (1)
is older than the stored version (2) is merged (header fields updated),
and one whose version (3) is strictly newer is treated as a new, distinct
object.  On the code, version 1 returns the stored message unmodified
(headers not updated), and version 3 also returns the stored message
rather than leaving the synced one as a new object. -/
theorem reconcile_message_claim_false :
    reconcile_message c1_synced_v1 [c1_existing] = .ok (some c1_existing) ∧
    c1_existing.message_id_header = "old-header" ∧
    c1_synced_v1.message_id_header = "new-header" ∧
    reconcile_message c1_synced_v3 [c1_existing] = .ok (some c1_existing) :=
  ⟨by rfl, by rfl, by rfl, by rfl⟩

/-- C1 (amended): for a synced message with a well-formed reconciliation
key `pid-v` and an existing created message with public id `pid` in the
namespace, `reconcile_message` updates the stored message's header fields
iff the synced version exactly equals the stored version; for any other
numeric version (older or newer) it still returns the stored message, but
unmodified — it is never treated as a new, distinct object. -/
theorem reconcile_message_merges_only_on_version_equality
    (new_message e : Message) (messages : List Message)
    (uid pid v : String) (n : Int)
    (huid : new_message.inbox_uid = some uid)
    (hdash : uid.toList.contains '-' = true)
    (hsplit : pySplitDash uid = [pid, v])
    (hint : pyInt? v = some n)
    (hfind : firstMessage messages (fun m =>
        m.namespace_id == new_message.namespace_id &&
        m.public_id == pid && m.is_created) = some e) :
    reconcile_message new_message messages =
      .ok (some (if n = e.version then mergeHeaders e new_message else e)) := by
  simp only [reconcile_message, huid, hdash, hsplit, hint, hfind, not_true,
    if_false, Bool.not_eq_true]
  rcases eq_or_ne n e.version with hv | hv <;> simp [hv]

/-- Witness for C1: applying the amended theorem at the concrete synced
message with key `abc123-3` against the stored version-2 message. -/
theorem reconcile_message_merges_only_on_version_equality_witness :
    reconcile_message c1_synced_v3 [c1_existing] =
      .ok (some (if (3 : Int) = c1_existing.version then
        mergeHeaders c1_existing c1_synced_v3 else c1_existing)) :=
  reconcile_message_merges_only_on_version_equality c1_synced_v3 c1_existing
    [c1_existing] "abc123-3" "abc123" "3" 3 (by rfl) (by rfl) (by rfl) (by rfl)
    (by rfl)

/-- C10: the metadata listing query hides rows with a null `value` in
every view mode: inserting such a row anywhere in the metadata table
changes neither the count, nor the ids view, nor the full view, for any
namespace, app filter, view mode and pagination. -/
theorem metadata_ignores_null_value_rows
    (db : DB) (pre post : List Metadata) (m : Metadata) (ns : Nat)
    (app_id : Option Nat) (view : String) (limit offset : Nat)
    (hm : m.value = none) :
    metadata { db with metadatas := pre ++ m :: post } ns app_id view limit offset =
      metadata { db with metadatas := pre ++ post } ns app_id view limit offset := by
  have hrows : metadataRows { db with metadatas := pre ++ m :: post } ns app_id =
      metadataRows { db with metadatas := pre ++ post } ns app_id := by
    simp [metadataRows, List.filter_append, List.filter_cons, hm]
  simp only [metadata, hrows]

/-- Witness for C10: inserting a concrete null-value row after a live row
leaves the count view unchanged. -/
theorem metadata_ignores_null_value_rows_witness :
    metadata { c10_db with metadatas := [c10_live_row] ++ c10_null_row :: [] }
        1 (some 2) "count" 10 0 =
      metadata { c10_db with metadatas := [c10_live_row] ++ [] } 1 (some 2)
        "count" 10 0 :=
  metadata_ignores_null_value_rows c10_db [c10_live_row] [] c10_null_row 1
    (some 2) "count" 10 0 (by rfl)

/-- Every statement `batchLoop` executes against the message table
carries the descending `received_date` ordering. -/
theorem batchLoop_stmts_ordered (table column : String) (id_ : Int)
    (throttle throttleHit dry_run : Bool) :
    ∀ (n : Nat) (db : DelDB) (s : Stmt),
      s ∈ (batchLoop table column id_ throttle throttleHit dry_run n db).2.stmts →
      s.table = "message" → s.orderByReceivedDateDesc = true := by
  intro n
  induction n with
  | zero =>
      intro db s hs
      simp [batchLoop] at hs
  | succ k ih =>
      intro db s hs htab
      simp only [batchLoop] at hs
      by_cases hd : dry_run = true
      · rw [if_pos hd] at hs
        exact ih _ s hs htab
      · rw [if_neg hd] at hs
        simp only [List.mem_cons] at hs
        rcases hs with hs | hs
        · by_cases hmsg : (table == "message") = true
          · rw [hs, if_pos hmsg]
          · rw [if_neg hmsg] at hs
            rw [hs] at htab
            exact absurd (beq_iff_eq.mpr htab) (by simpa using hmsg)
        · exact ih _ s hs htab

/-- Every statement `_batch_delete` executes against the message table
carries the descending `received_date` ordering. -/
theorem _batch_delete_stmts_ordered (db : DelDB) (table column : String)
    (id_ : Int) (throttle throttleHit dry_run : Bool) :
    ∀ s ∈ (_batch_delete db table column id_ throttle throttleHit dry_run).2.stmts,
      s.table = "message" → s.orderByReceivedDateDesc = true := by
  intro s hs htab
  simp only [_batch_delete] at hs
  by_cases hc : ((getTable db table).countP fun r => getCol r column == id_) == 0
  · rw [if_pos hc] at hs
    simp at hs
  · rw [if_neg hc] at hs
    exact batchLoop_stmts_ordered table column id_ throttle throttleHit dry_run
      _ db s hs htab

/-- The chunked-deletion fold preserves the message-ordering property of
the accumulated statement trace. -/
theorem chunk_fold_stmts_ordered (throttle throttleHit dry_run : Bool) :
    ∀ (l : List (String × String × Int)) (acc : DelDB × ExecTrace),
      (∀ s ∈ acc.2.stmts, s.table = "message" → s.orderByReceivedDateDesc = true) →
      ∀ s ∈ (l.foldl (chunkStep throttle throttleHit dry_run) acc).2.stmts,
        s.table = "message" → s.orderByReceivedDateDesc = true := by
  intro l
  induction l with
  | nil => intro acc hacc; simpa using hacc
  | cons tf rest ih =>
      intro acc hacc
      simp only [List.foldl_cons]
      apply ih
      intro s hs htab
      simp only [chunkStep, ExecTrace.append, List.mem_append] at hs
      rcases hs with hs | hs
      · exact hacc s hs htab
      · exact _batch_delete_stmts_ordered acc.1 tf.1 tf.2.1 tf.2.2 throttle
          throttleHit dry_run s hs htab

/-- The single-statement fold never touches the message table as long as
none of its filters names it, so it also preserves the property. -/
theorem single_fold_stmts_ordered (throttle throttleHit dry_run : Bool) :
    ∀ (l : List (String × String × Int)) (acc : DelDB × ExecTrace),
      (∀ tf ∈ l, tf.1 ≠ "message") →
      (∀ s ∈ acc.2.stmts, s.table = "message" → s.orderByReceivedDateDesc = true) →
      ∀ s ∈ (l.foldl (singleStep throttle throttleHit dry_run) acc).2.stmts,
        s.table = "message" → s.orderByReceivedDateDesc = true := by
  intro l
  induction l with
  | nil => intro acc _ hacc; simpa using hacc
  | cons tf rest ih =>
      intro acc hl hacc
      simp only [List.foldl_cons]
      apply ih _ fun x hx => hl x (List.mem_cons_of_mem tf hx)
      intro s hs htab
      simp only [singleStep, ExecTrace.append] at hs
      by_cases hd : dry_run = true
      · rw [if_pos hd] at hs
        simp only [List.append_nil] at hs
        exact hacc s hs htab
      · rw [if_neg hd] at hs
        simp only [List.mem_append, List.mem_singleton] at hs
        rcases hs with hs | hs
        · exact hacc s hs htab
        · rw [hs] at htab
          exact absurd htab (hl tf (List.mem_cons_self tf rest))

/-- C7: every DELETE statement the bulk-deletion engine issues against
the message table — for any initial state, account, namespace, throttle
and dry-run flags, and any batch of the chunked loop — carries
`ORDER BY received_date desc`; no message-table delete is ever executed
without that ordering. -/
theorem message_deletes_always_ordered
    (db : DelDB) (account_id namespace_id : Int)
    (throttle throttleHit dry_run : Bool) (s : Stmt)
    (hs : s ∈ (delete_namespace db account_id namespace_id throttle throttleHit
        dry_run).2.stmts)
    (htab : s.table = "message") : s.orderByReceivedDateDesc = true := by
  unfold delete_namespace at hs
  cases hfind : db.accounts.find? fun x => x.id == account_id with
  | none => rw [hfind] at hs; simp at hs
  | some acct =>
      rw [hfind] at hs
      simp only at hs
      have hsingles : ∀ tf ∈ singleFilters account_id namespace_id, tf.1 ≠ "message" := by
        intro tf htf
        simp only [singleFilters, List.mem_cons, List.not_mem_nil, or_false] at htf
        rcases htf with h | h | h | h | h <;> (subst h; simp)
      refine single_fold_stmts_ordered throttle throttleHit dry_run
        (singleFilters account_id namespace_id) _ hsingles ?_ s hs htab
      intro s1 hs1 htab1
      exact chunk_fold_stmts_ordered throttle throttleHit dry_run
        (chunkFilters acct.discriminator account_id namespace_id) (db, ⟨[], []⟩)
        (by simp) s1 hs1 htab1

/-- Witness for C7: in a concrete run on `c4_db0`, the ordered
message-table statement is in the executed trace and the theorem applies
to it. -/
theorem message_deletes_always_ordered_witness :
    (⟨"message", "namespace_id", 1, some 2000, true⟩ : Stmt).orderByReceivedDateDesc
      = true :=
  message_deletes_always_ordered c4_db0 1 1 false false false
    ⟨"message", "namespace_id", 1, some 2000, true⟩ (by decide) (by rfl)

/-- C4 counterexample: a first `delete_namespace` run on a concrete
populated state succeeds, but running it again from the state the first
run left behind raises (the account row is gone, so the discriminator
lookup fails) after executing no statement and emitting no log at all —
in particular no 0-count batch log for any chunk-deleted table. -/
theorem delete_namespace_twice_claim_false :
    (delete_namespace c4_db0 1 1 false false false).1.toOption.isSome = true ∧
    (delete_namespace c4_db1 1 1 false false false).1.toOption.isSome = false ∧
    (delete_namespace c4_db1 1 1 false false false).2.stmts = [] ∧
    (delete_namespace c4_db1 1 1 false false false).2.logs = [] :=
  ⟨by rfl, by rfl, by rfl, by rfl⟩

/-- C4 (amended): a second `delete_namespace` run raises before touching
any table — with the account row gone, the run errors with an empty
statement and log trace; the chunk-table deletion step itself is
idempotent: on a state with no matching rows, `_batch_delete` deletes
nothing and logs the zero-count batch completion for its table. -/
theorem delete_namespace_second_run_raises :
    (∀ (db : DelDB) (a n : Int) (t th d : Bool),
        (db.accounts.find? fun x => x.id == a) = none →
        (delete_namespace db a n t th d).1.toOption.isSome = false ∧
        (delete_namespace db a n t th d).2 = ⟨[], []⟩) ∧
    (∀ (db : DelDB) (table column : String) (i : Int) (t th d : Bool),
        ((getTable db table).countP fun r => getCol r column == i) = 0 →
        _batch_delete db table column i t th d =
          (db, ⟨[], [.batchCompleted table]⟩)) := by
  constructor
  · intro db a n t th d h
    simp [delete_namespace, h, Except.toOption]
  · intro db table column i t th d h
    simp [_batch_delete, h]

/-- Witness for C4: applying the amended theorem to the state left by the
first run on `c4_db0`. -/
theorem delete_namespace_second_run_raises_witness :
    ((delete_namespace c4_db1 1 1 false false false).1.toOption.isSome = false ∧
      (delete_namespace c4_db1 1 1 false false false).2 = ⟨[], []⟩) ∧
    _batch_delete c4_db1 "message" "namespace_id" 1 false false false =
      (c4_db1, ⟨[], [.batchCompleted "message"]⟩) :=
  ⟨delete_namespace_second_run_raises.1 c4_db1 1 1 false false false (by rfl),
   delete_namespace_second_run_raises.2 c4_db1 "message" "namespace_id" 1 false
     false false (by rfl)⟩

/-- The loop of `delete_marked_accounts` contributes each pair's own logs
and success bit independently of all other pairs. -/
theorem dmaLoop_decomposes :
    ∀ envs : List PairEnv,
      dmaLoop envs = (envs.flatMap pairLogs, envs.countP pairSucceeds) := by
  intro envs
  induction envs with
  | nil => rfl
  | cons e rest ih =>
      simp only [dmaLoop, ih, List.flatMap_cons, List.countP_cons]
      cases hb : processAccountBody e with
      | ok r =>
          simp only [pairLogs, pairSucceeds, hb]
          cases r with
          | mk ls b => cases b <;> simp [Nat.add_comm]
      | error ls => simp [pairLogs, pairSucceeds, hb, Nat.add_comm]

/-- C9: no pair's failure aborts a `delete_marked_accounts` run.  The run
is a total function whose output is exactly the concatenation of each
pair's own logs (plus the final summary), so every pair is processed no
matter what happened to the pairs before it; a pair whose precondition
re-check fails contributes a warning and is skipped; a pair whose
`delete_namespace` raises contributes a critical log and is skipped; a
pair whose liveness cleanup raises contributes the uncaught-error log —
none of these propagates out. -/
theorem delete_marked_accounts_isolates_failures :
    (∀ envs : List PairEnv,
        delete_marked_accounts envs =
          (envs.flatMap pairLogs ++
            [.allDataDeleted (envs.countP pairSucceeds)],
           envs.countP pairSucceeds)) ∧
    (∀ (e : PairEnv) (a : Account), e.account = some a →
        (a.sync_should_run || !a.is_deleted) = true →
        pairLogs e = [.accountNotMarked e.account_id] ∧ pairSucceeds e = false) ∧
    (∀ (e : PairEnv) (a : Account), e.account = some a →
        (a.sync_should_run || !a.is_deleted) = false →
        e.deleteNamespaceRaises = true →
        pairLogs e = [.deletingAccount e.account_id, .deletingDbData e.account_id,
          .dbDeletionFailed e.account_id] ∧ pairSucceeds e = false) ∧
    (∀ (e : PairEnv) (a : Account), e.account = some a →
        (a.sync_should_run || !a.is_deleted) = false →
        e.deleteNamespaceRaises = false → e.heartbeatRaises = true →
        pairLogs e = [.deletingAccount e.account_id, .deletingDbData e.account_id,
          .deletingLiveness e.account_id, .uncaughtError e.account_id] ∧
        pairSucceeds e = false) := by
  refine ⟨?_, ?_, ?_, ?_⟩
  · intro envs
    simp [delete_marked_accounts, dmaLoop_decomposes]
  · intro e a ha hflag
    simp [pairLogs, pairSucceeds, processAccountBody, ha, hflag]
  · intro e a ha hflag hdel
    simp [pairLogs, pairSucceeds, processAccountBody, ha, hflag, hdel]
  · intro e a ha hflag hdel hhb
    simp [pairLogs, pairSucceeds, processAccountBody, ha, hflag, hdel, hhb]

/-- Witness for C9: a concrete run over one pair of each failure kind
plus a successful one. -/
theorem delete_marked_accounts_isolates_failures_witness :
    delete_marked_accounts
        [c9_env_notMarked, c9_env_deleteRaises, c9_env_heartbeatRaises, c9_env_ok] =
      ([c9_env_notMarked, c9_env_deleteRaises, c9_env_heartbeatRaises,
          c9_env_ok].flatMap pairLogs ++
        [.allDataDeleted ([c9_env_notMarked, c9_env_deleteRaises,
          c9_env_heartbeatRaises, c9_env_ok].countP pairSucceeds)],
       [c9_env_notMarked, c9_env_deleteRaises, c9_env_heartbeatRaises,
          c9_env_ok].countP pairSucceeds) ∧
    pairLogs c9_env_notMarked = [.accountNotMarked 1] ∧
    pairLogs c9_env_deleteRaises =
      [.deletingAccount 2, .deletingDbData 2, .dbDeletionFailed 2] ∧
    pairLogs c9_env_heartbeatRaises =
      [.deletingAccount 3, .deletingDbData 3, .deletingLiveness 3,
       .uncaughtError 3] :=
  ⟨delete_marked_accounts_isolates_failures.1 _,
   by simpa using (delete_marked_accounts_isolates_failures.2.1 c9_env_notMarked
      (c9_acct 1 true true) (by rfl) (by rfl)).1,
   by simpa using (delete_marked_accounts_isolates_failures.2.2.1 c9_env_deleteRaises
      (c9_acct 2 false true) (by rfl) (by rfl) (by rfl)).1,
   by simpa using (delete_marked_accounts_isolates_failures.2.2.2 c9_env_heartbeatRaises
      (c9_acct 3 false true) (by rfl) (by rfl) (by rfl) (by rfl)).1⟩

/-- C3 counterexample: with two surviving templates of lengths 1 and 2
and only `ends_before = 10` given, the claim's per-template derivation
fails — the second template's expansion window is derived from the first
template's length. -/
theorem recurring_events_claim_false :
    c3ClaimHolds c3_db c3_filters none none (some 10) none false = false ∧
    recurring_events_calls c3_db c3_filters none none (some 10) none false =
      [⟨c3_r1, none, some 9⟩, ⟨c3_r2, none, some 9⟩] :=
  ⟨by rfl, by rfl⟩

/-- Once the loop's `starts_before` variable holds a value, later
iterations leave it unchanged, so every later call's end-side window
bound is that same value. -/
theorem expansionLoop_stop_const (eb ea : Option Int) (x : Int) :
    ∀ (rs : List RecurringEvent) (sa : Option Int) (c : ExpCall),
      c ∈ expansionLoop eb ea rs (some x) sa → c.stop = some x := by
  intro rs
  induction rs with
  | nil =>
      intro sa c hc
      simp [expansionLoop] at hc
  | cons r rest ih =>
      intro sa c hc
      cases eb <;>
        · simp only [expansionLoop] at hc
          rcases List.mem_cons.1 hc with rfl | hc
          · rfl
          · exact ih _ c hc

/-- Symmetric statement for the loop's `starts_after` variable. -/
theorem expansionLoop_start_const (eb ea : Option Int) (x : Int) :
    ∀ (rs : List RecurringEvent) (sb : Option Int) (c : ExpCall),
      c ∈ expansionLoop eb ea rs sb (some x) → c.start = some x := by
  intro rs
  induction rs with
  | nil =>
      intro sb c hc
      simp [expansionLoop] at hc
  | cons r rest ih =>
      intro sb c hc
      cases ea <;>
        · simp only [expansionLoop] at hc
          rcases List.mem_cons.1 hc with rfl | hc
          · rfl
          · exact ih _ c hc

/-- C3 (amended): when only an end-side bound is given, the missing
start-side bound is derived once, from the FIRST surviving template's
length, and that single derived value is the bound used for every
template's expansion call (the loop reassigns the function-level
variable, so later templates do not get their own derivation). -/
theorem recurring_events_derived_bound_uses_first_template :
    (∀ (db : DB) (f : EventFilters) (sa ea : Option Int) (e : Int)
        (r : RecurringEvent) (rs : List RecurringEvent) (sc : Bool),
        recurringEventSurvivors db f none sa (some e) ea sc = r :: rs →
        ∀ c ∈ recurring_events_calls db f none sa (some e) ea sc,
          c.stop = some (e - r.length)) ∧
    (∀ (db : DB) (f : EventFilters) (sb eb : Option Int) (e : Int)
        (r : RecurringEvent) (rs : List RecurringEvent) (sc : Bool),
        recurringEventSurvivors db f sb none eb (some e) sc = r :: rs →
        ∀ c ∈ recurring_events_calls db f sb none eb (some e) sc,
          c.start = some (e - r.length)) := by
  constructor
  · intro db f sa ea e r rs sc hsurv c hc
    unfold recurring_events_calls at hc
    rw [hsurv] at hc
    simp only [expansionLoop] at hc
    rcases List.mem_cons.1 hc with rfl | hc
    · rfl
    · exact expansionLoop_stop_const (some e) ea (e - r.length) rs _ c hc
  · intro db f sb eb e r rs sc hsurv c hc
    unfold recurring_events_calls at hc
    rw [hsurv] at hc
    cases eb <;>
      · simp only [expansionLoop] at hc
        rcases List.mem_cons.1 hc with rfl | hc
        · rfl
        · exact expansionLoop_start_const _ (some e) (e - r.length) rs _ c hc

/-- Witness for C3: applying the amended theorem to the second concrete
call of the two-template run, whose bound comes from the first template's
length 1, not its own length 2. -/
theorem recurring_events_derived_bound_uses_first_template_witness :
    (⟨c3_r2, none, some 9⟩ : ExpCall).stop = some (10 - c3_r1.length) :=
  recurring_events_derived_bound_uses_first_template.1 c3_db c3_filters none
    none 10 c3_r1 [c3_r2] false (by rfl) ⟨c3_r2, none, some 9⟩ (by decide)

/-- Anything kept by `dedupByKeyAux` was in the input list. -/
theorem mem_of_mem_dedupByKeyAux {α β : Type} [DecidableEq β] (key : α → β) :
    ∀ (seen : List β) (l : List α) (b : α),
      b ∈ dedupByKeyAux key seen l → b ∈ l := by
  intro seen l
  induction l generalizing seen with
  | nil =>
      intro b hb
      simp [dedupByKeyAux] at hb
  | cons a as ih =>
      intro b hb
      simp only [dedupByKeyAux] at hb
      by_cases h : key a ∈ seen
      · rw [if_pos h] at hb
        exact List.mem_cons_of_mem a (ih seen b hb)
      · rw [if_neg h] at hb
        rcases List.mem_cons.1 hb with heq | hb
        · rw [heq]
          exact List.mem_cons_self a as
        · exact List.mem_cons_of_mem a (ih _ b hb)

/-- An element whose key is unseen and determines it uniquely within the
list survives `dedupByKeyAux`. -/
theorem mem_dedupByKeyAux_of_mem {α β : Type} [DecidableEq β] (key : α → β) :
    ∀ (seen : List β) (l : List α) (b : α), b ∈ l → key b ∉ seen →
      (∀ a ∈ l, key a = key b → a = b) → b ∈ dedupByKeyAux key seen l := by
  intro seen l
  induction l generalizing seen with
  | nil =>
      intro b hb
      simp at hb
  | cons a as ih =>
      intro b hb hseen hinj
      simp only [dedupByKeyAux]
      by_cases h : key a ∈ seen
      · rw [if_pos h]
        rcases List.mem_cons.1 hb with rfl | hb2
        · exact absurd h hseen
        · exact ih seen b hb2 hseen fun x hx => hinj x (List.mem_cons_of_mem a hx)
      · rw [if_neg h]
        by_cases hk : key a = key b
        · have hab : a = b := hinj a (List.mem_cons_self a as) hk
          subst hab
          exact List.mem_cons_self a _
        · rcases List.mem_cons.1 hb with rfl | hb2
          · exact absurd rfl hk
          · refine List.mem_cons_of_mem a
              (ih _ b hb2 ?_ fun x hx => hinj x (List.mem_cons_of_mem a hx))
            simp only [List.mem_cons]
            rintro (h1 | h1)
            · exact hk h1.symm
            · exact hseen h1

/-- The length of the deduplicated list counts the distinct unseen
keys. -/
theorem length_dedupByKeyAux {α β : Type} [DecidableEq β] (key : α → β) :
    ∀ (l : List α) (seen : List β),
      (dedupByKeyAux key seen l).length =
        ((l.map key).toFinset \ seen.toFinset).card := by
  intro l
  induction l with
  | nil =>
      intro seen
      simp [dedupByKeyAux]
  | cons a as ih =>
      intro seen
      simp only [dedupByKeyAux, List.map_cons, List.toFinset_cons]
      by_cases h : key a ∈ seen
      · rw [if_pos h, ih]
        rw [Finset.insert_sdiff_of_mem _ (by simpa using h)]
      · rw [if_neg h]
        simp only [List.length_cons, ih]
        rw [Finset.insert_sdiff_of_not_mem _ (by simpa using h)]
        rw [List.toFinset_cons, Finset.sdiff_insert]
        by_cases hmem : key a ∈ (as.map key).toFinset \ seen.toFinset
        · rw [Finset.insert_eq_self.2 hmem, Finset.card_erase_add_one hmem]
        · rw [Finset.card_insert_of_not_mem hmem,
            Finset.erase_eq_of_not_mem hmem]

/-- The length of the deduplicated list is the number of distinct
keys. -/
theorem length_dedupByKey {α β : Type} [DecidableEq β] (key : α → β)
    (l : List α) : (dedupByKey key l).length = (l.map key).toFinset.card := by
  simp [dedupByKey, length_dedupByKeyAux]

/-- C5: for the /threads resource, for every database state and filter
set, with no pagination (offset 0 and a limit at least the raw row
count), the count view equals the number of rows the full view returns —
the count is a distinct count over thread ids, and the full view's
entity rows are uniquified by primary key, so a thread appearing several
times in the joined row set (e.g. via three messages in the filtered
category) is counted and returned exactly once. -/
theorem threads_count_eq_full_length (db : DB) (p : ThreadsParams) (limit : Nat)
    (hlim : (threadsRawRows db p).length ≤ limit) :
    countOf (threads db p limit 0 "count") =
      (rowsOf (threads db p limit 0 "full")).length ∧
    countOf (threads db p limit 0 "count") =
      ((threadsRawRows db p).map fun t => t.id).dedup.length := by
  have h1 : threads db p limit 0 "count" =
      .count (((threadsRawRows db p).map fun t => t.id).dedup.length) := rfl
  have h2 : threads db p limit 0 "full" =
      .rows (dedupByKey (fun t => t.id)
        ((((threadsRawRows db p).insertionSort
            fun a b => b.recentdate ≤ a.recentdate).drop 0).take limit)) := rfl
  refine ⟨?_, by rw [h1]; rfl⟩
  rw [h1, h2]
  simp only [countOf, rowsOf]
  have hperm : List.Perm ((threadsRawRows db p).insertionSort
      fun (a b : Thread) => b.recentdate ≤ a.recentdate) (threadsRawRows db p) :=
    List.perm_insertionSort _ _
  rw [List.drop_zero, List.take_of_length_le (by rw [hperm.length_eq]; exact hlim),
    length_dedupByKey]
  rw [List.toFinset_eq_of_perm _ _ (hperm.map fun t => t.id)]
  exact (List.card_toFinset _).symm

/-- Witness for C5: the concrete three-messages-one-category database —
three raw joined rows, but the count and the full view agree on one
thread. -/
theorem threads_count_eq_full_length_witness :
    (threadsRawRows c5_db c5_params).length ≤ 100 ∧
    (threadsRawRows c5_db c5_params).length = 3 ∧
    countOf (threads c5_db c5_params 100 0 "count") =
      (rowsOf (threads c5_db c5_params 100 0 "full")).length ∧
    countOf (threads c5_db c5_params 100 0 "count") = 1 :=
  ⟨by decide, by decide,
   (threads_count_eq_full_length c5_db c5_params 100 (by decide)).1,
   by decide⟩

/-- C2 counterexample: a block with no Part rows at all is returned by
the full view and counted by the count view of the /files query, even
though it is not a "real" attachment (it has no Part with non-null
`content_disposition`). -/
theorem files_claim_false :
    files c2_db 7 none none none 100 0 "count" = .count 1 ∧
    rowsOf (files c2_db 7 none none none 100 0 "full") = [c2_block] ∧
    idsOf (files c2_db 7 none none none 100 0 "ids") = ["blk1"] ∧
    isRealAttachment c2_db c2_block = false :=
  ⟨by rfl, by rfl, by rfl, by rfl⟩

/-- The deduplicated list is never longer than its input. -/
theorem length_dedupByKeyAux_le {α β : Type} [DecidableEq β] (key : α → β) :
    ∀ (seen : List β) (l : List α),
      (dedupByKeyAux key seen l).length ≤ l.length := by
  intro seen l
  induction l generalizing seen with
  | nil => simp [dedupByKeyAux]
  | cons a as ih =>
      simp only [dedupByKeyAux]
      by_cases h : key a ∈ seen
      · rw [if_pos h]
        exact Nat.le_succ_of_le (ih seen)
      · rw [if_neg h]
        simpa using ih (key a :: seen)

/-- Every row of the outer join consists of a block from the block table
together with either `none` (when the block has no part rows) or one of
the block's part rows. -/
theorem filesOuterRows_inv (db : DB) (b : Block) (po : Option Part)
    (hr : (b, po) ∈ filesOuterRows db) :
    b ∈ db.blocks ∧
      (match po with
       | none => db.parts.filter (fun p => p.block_id == b.id) = []
       | some p => p ∈ db.parts.filter fun q => q.block_id == b.id) := by
  simp only [filesOuterRows, List.mem_flatMap] at hr
  rcases hr with ⟨a, ha, hmem⟩
  by_cases hps : (db.parts.filter fun p => p.block_id == a.id).isEmpty
  · rw [if_pos hps] at hmem
    simp only [List.mem_singleton, Prod.mk.injEq] at hmem
    rcases hmem with ⟨hba, hpo⟩
    subst hba
    subst hpo
    exact ⟨ha, List.isEmpty_iff.1 hps⟩
  · rw [if_neg hps] at hmem
    simp only [List.mem_map, Prod.mk.injEq] at hmem
    rcases hmem with ⟨p, hp, hba, hpo⟩
    subst hba
    subst hpo
    exact ⟨ha, hp⟩

/-- Membership in the /files row set with no optional filters. -/
theorem filesRows_mem_iff (db : DB) (ns : Nat) (r : Block × Option Part) :
    r ∈ filesRows db ns none none none ↔
      (r ∈ filesOuterRows db ∧ (r.1.namespace_id == ns) = true ∧
        (match r.2 with
         | none => true
         | some p => p.content_disposition.isSome) = true) := by
  simp only [filesRows, List.mem_filter]
  constructor
  · rintro ⟨⟨⟨⟨h1, h2⟩, h3⟩, _⟩, _⟩
    exact ⟨h1, h2, h3⟩
  · rintro ⟨h1, h2, h3⟩
    exact ⟨⟨⟨⟨h1, h2⟩, h3⟩, trivial⟩, trivial⟩

/-- A row kept by the /files query certifies that its block is in the
table and satisfies the actual keeping condition. -/
theorem blockPasses_of_row (db : DB) (ns : Nat) (b : Block) (po : Option Part)
    (hr : (b, po) ∈ filesRows db ns none none none) :
    b ∈ db.blocks ∧ blockPasses db ns b = true := by
  rcases (filesRows_mem_iff db ns (b, po)).1 hr with ⟨houter, hns, hdisp⟩
  rcases filesOuterRows_inv db b po houter with ⟨hb, hpart⟩
  refine ⟨hb, ?_⟩
  simp only [blockPasses, Bool.and_eq_true, Bool.or_eq_true]
  refine ⟨hns, ?_⟩
  cases po with
  | none =>
      left
      simp only at hpart
      simp [hpart]
  | some p =>
      right
      simp only at hpart hdisp
      rcases List.mem_filter.1 hpart with ⟨hpmem, hpid⟩
      simp only [isRealAttachment, List.any_eq_true]
      exact ⟨p, hpmem, by simp [hpid, hdisp]⟩

/-- Conversely, every namespace-matching block with no parts or with a
disposition-bearing part contributes at least one row. -/
theorem row_of_blockPasses (db : DB) (ns : Nat) (b : Block)
    (hb : b ∈ db.blocks) (hp : blockPasses db ns b = true) :
    ∃ r ∈ filesRows db ns none none none, r.1 = b := by
  simp only [blockPasses, Bool.and_eq_true, Bool.or_eq_true] at hp
  rcases hp with ⟨hns, hempty | hreal⟩
  · refine ⟨(b, none), ?_, rfl⟩
    rw [filesRows_mem_iff]
    refine ⟨?_, hns, rfl⟩
    simp only [filesOuterRows, List.mem_flatMap]
    exact ⟨b, hb, by rw [if_pos hempty]; exact List.mem_singleton_self _⟩
  · simp only [isRealAttachment, List.any_eq_true, Bool.and_eq_true] at hreal
    rcases hreal with ⟨p, hpmem, hpid, hpdisp⟩
    refine ⟨(b, some p), ?_, rfl⟩
    rw [filesRows_mem_iff]
    refine ⟨?_, hns, hpdisp⟩
    simp only [filesOuterRows, List.mem_flatMap]
    refine ⟨b, hb, ?_⟩
    have hpf : p ∈ db.parts.filter fun q => q.block_id == b.id :=
      List.mem_filter.2 ⟨hpmem, hpid⟩
    have hne : (db.parts.filter fun q => q.block_id == b.id).isEmpty = false := by
      cases hq : db.parts.filter fun q => q.block_id == b.id with
      | nil => rw [hq] at hpf; simp at hpf
      | cons x xs => rfl
    rw [if_neg (by simp [hne])]
    exact List.mem_map.2 ⟨p, hpf, rfl⟩

/-- Membership in an unpaginated DISTINCT projection: with enough limit
and keys determining elements, it is membership in the projected list. -/
theorem mem_take_dedup_iff {α β : Type} [DecidableEq β] (key : α → β)
    (l : List α) (limit : Nat) (hlim : l.length ≤ limit) (b : α)
    (hinj : b ∈ l → ∀ a ∈ l, key a = key b → a = b) :
    b ∈ (dedupByKey key l).take limit ↔ b ∈ l := by
  rw [dedupByKey,
    List.take_of_length_le (le_trans (length_dedupByKeyAux_le _ _ _) hlim)]
  constructor
  · exact mem_of_mem_dedupByKeyAux _ _ _ _
  · intro hb
    exact mem_dedupByKeyAux_of_mem _ _ _ _ hb (by simp) (hinj hb)

/-- C2 (amended): with no optional filters and no pagination, the /files
query keeps a block iff it either has no Part rows at all or has at
least one Part with non-null `content_disposition`: the full view
returns exactly those blocks, the ids view exactly their public ids, and
the count is zero iff no block qualifies — so a block whose Parts all
have null `content_disposition` is never returned or counted, but a
block with no Part rows, which the claim said must be excluded, is
returned and counted. -/
theorem files_keeps_partless_or_disposition_blocks
    (db : DB) (ns : Nat) (limit : Nat)
    (hnodup : (db.blocks.map fun b => b.id).Nodup)
    (hlim : (filesRows db ns none none none).length ≤ limit) :
    (∀ b : Block,
      b ∈ rowsOf (files db ns none none none limit 0 "full") ↔
        (b ∈ db.blocks ∧ blockPasses db ns b = true)) ∧
    (∀ pid : String,
      pid ∈ idsOf (files db ns none none none limit 0 "ids") ↔
        ∃ b, b ∈ db.blocks ∧ blockPasses db ns b = true ∧ b.public_id = pid) ∧
    (countOf (files db ns none none none limit 0 "count") = 0 ↔
      ∀ b ∈ db.blocks, blockPasses db ns b = false) := by
  have hperm : List.Perm ((filesRows db ns none none none).insertionSort
      fun (a b : Block × Option Part) => a.1.id ≤ b.1.id)
      (filesRows db ns none none none) := List.perm_insertionSort _ _
  have hsortedmem : ∀ r : Block × Option Part,
      r ∈ ((filesRows db ns none none none).insertionSort
        fun (a b : Block × Option Part) => a.1.id ≤ b.1.id) ↔
        r ∈ filesRows db ns none none none := fun r => hperm.mem_iff
  have hsortedlen : ((filesRows db ns none none none).insertionSort
      fun (a b : Block × Option Part) => a.1.id ≤ b.1.id).length =
      (filesRows db ns none none none).length := hperm.length_eq
  refine ⟨?_, ?_, ?_⟩
  · -- full view
    intro b
    have h2 : files db ns none none none limit 0 "full" =
        .rows (((dedupByKey (fun x => x.id)
          (((filesRows db ns none none none).insertionSort
            fun (a b : Block × Option Part) => a.1.id ≤ b.1.id).map
              fun r => r.1)).drop 0).take limit) := rfl
    rw [h2]
    simp only [rowsOf, List.drop_zero]
    have hmemblocks : ∀ x : Block,
        x ∈ (((filesRows db ns none none none).insertionSort
          fun (a b : Block × Option Part) => a.1.id ≤ b.1.id).map fun r => r.1) →
        x ∈ db.blocks ∧ blockPasses db ns x = true := by
      intro x hx
      rcases List.mem_map.1 hx with ⟨r, hr, hrb⟩
      rw [hsortedmem r] at hr
      rcases blockPasses_of_row db ns r.1 r.2 hr with ⟨hbs, hps⟩
      rw [hrb] at hbs hps
      exact ⟨hbs, hps⟩
    rw [mem_take_dedup_iff (fun x => x.id) _ limit
      (by rw [List.length_map, hsortedlen]; exact hlim) b
      (fun hbl a ha hk => List.inj_on_of_nodup_map hnodup (hmemblocks a ha).1
        (hmemblocks b hbl).1 hk)]
    constructor
    · exact fun hb => hmemblocks b hb
    · rintro ⟨hbs, hps⟩
      rcases row_of_blockPasses db ns b hbs hps with ⟨r, hr, hrb⟩
      exact List.mem_map.2 ⟨r, (hsortedmem r).2 hr, hrb⟩
  · -- ids view
    intro pid
    have h2 : files db ns none none none limit 0 "ids" =
        .ids (((dedupByKey (fun s => s)
          (((filesRows db ns none none none).insertionSort
            fun (a b : Block × Option Part) => a.1.id ≤ b.1.id).map
              fun r => r.1.public_id)).drop 0).take limit) := rfl
    rw [h2]
    simp only [idsOf, List.drop_zero]
    rw [mem_take_dedup_iff (fun s => s) _ limit
      (by rw [List.length_map, hsortedlen]; exact hlim) pid
      (fun _ a _ hk => hk)]
    constructor
    · intro hmem
      rcases List.mem_map.1 hmem with ⟨r, hr, hrb⟩
      rw [hsortedmem r] at hr
      rcases blockPasses_of_row db ns r.1 r.2 hr with ⟨hbs, hps⟩
      exact ⟨r.1, hbs, hps, hrb⟩
    · rintro ⟨b, hbs, hps, hpid⟩
      rcases row_of_blockPasses db ns b hbs hps with ⟨r, hr, hrb⟩
      refine List.mem_map.2 ⟨r, (hsortedmem r).2 hr, ?_⟩
      rw [hrb, hpid]
  · -- count view
    have h2 : files db ns none none none limit 0 "count" =
        .count (filesRows db ns none none none).length := rfl
    rw [h2]
    simp only [countOf, List.length_eq_zero]
    constructor
    · intro hnil b hbs
      cases hpb : blockPasses db ns b with
      | false => rfl
      | true =>
          exfalso
          rcases row_of_blockPasses db ns b hbs hpb with ⟨r, hr, _⟩
          rw [hnil] at hr
          simp at hr
    · intro hall
      cases hrows : filesRows db ns none none none with
      | nil => rfl
      | cons r rest =>
          exfalso
          have hr : r ∈ filesRows db ns none none none := by
            rw [hrows]; exact List.mem_cons_self r rest
          rcases blockPasses_of_row db ns r.1 r.2 hr with ⟨hbs, hps⟩
          rw [hall r.1 hbs] at hps
          exact Bool.false_ne_true hps

/-- Witness for C2: the amended theorem applied to the concrete
no-parts block database, where the partless block is returned. -/
theorem files_keeps_partless_or_disposition_blocks_witness :
    (c2_block ∈ rowsOf (files c2_db 7 none none none 100 0 "full") ↔
      (c2_block ∈ c2_db.blocks ∧ blockPasses c2_db 7 c2_block = true)) ∧
    c2_block ∈ c2_db.blocks ∧ blockPasses c2_db 7 c2_block = true :=
  ⟨(files_keeps_partless_or_disposition_blocks c2_db 7 100 (by decide)
      (by decide)).1 c2_block,
   by decide, by decide⟩

/-- C8: in the /messages filter set, `received_before` is inclusive (it
keeps a message with `received_date` equal to the bound, conjoining a
`≤` comparison), while `received_after` and all the thread-date filters
on messages (`started_before`/`started_after`, `last_message_before`/
`last_message_after`, which also re-assert the thread's namespace) and
on threads are strict comparisons, whatever the other filters are. -/
theorem date_filters_strictness
    (db : DB) (p : MessagesParams) (tp : ThreadsParams)
    (m : Message) (t : Thread) (b : Int) :
    (messagesFilterPass db { p with received_before := some b } m t = true ↔
      (messagesFilterPass db { p with received_before := none } m t = true ∧
        m.received_date ≤ b)) ∧
    (messagesFilterPass db { p with received_after := some b } m t = true ↔
      (messagesFilterPass db { p with received_after := none } m t = true ∧
        m.received_date > b)) ∧
    (messagesFilterPass db { p with started_before := some b } m t = true ↔
      (messagesFilterPass db { p with started_before := none } m t = true ∧
        t.subjectdate < b ∧ t.namespace_id = p.namespace_id)) ∧
    (messagesFilterPass db { p with started_after := some b } m t = true ↔
      (messagesFilterPass db { p with started_after := none } m t = true ∧
        t.subjectdate > b ∧ t.namespace_id = p.namespace_id)) ∧
    (messagesFilterPass db { p with last_message_before := some b } m t = true ↔
      (messagesFilterPass db { p with last_message_before := none } m t = true ∧
        t.recentdate < b ∧ t.namespace_id = p.namespace_id)) ∧
    (messagesFilterPass db { p with last_message_after := some b } m t = true ↔
      (messagesFilterPass db { p with last_message_after := none } m t = true ∧
        t.recentdate > b ∧ t.namespace_id = p.namespace_id)) ∧
    (threadsFiltersPass { tp with started_before := some b } t = true ↔
      (threadsFiltersPass { tp with started_before := none } t = true ∧
        t.subjectdate < b)) ∧
    (threadsFiltersPass { tp with started_after := some b } t = true ↔
      (threadsFiltersPass { tp with started_after := none } t = true ∧
        t.subjectdate > b)) ∧
    (threadsFiltersPass { tp with last_message_before := some b } t = true ↔
      (threadsFiltersPass { tp with last_message_before := none } t = true ∧
        t.recentdate < b)) ∧
    (threadsFiltersPass { tp with last_message_after := some b } t = true ↔
      (threadsFiltersPass { tp with last_message_after := none } t = true ∧
        t.recentdate > b)) := by
  refine ⟨?_, ?_, ?_, ?_, ?_, ?_, ?_, ?_, ?_, ?_⟩ <;>
    · simp only [messagesFilterPass, threadsFiltersPass, Bool.and_eq_true,
        decide_eq_true_eq, beq_iff_eq, and_true, true_and]
      tauto

end SyncEngine
